import Mathlib

/-!
Verification development for the bug-report intake tool (`src/main.py`).

The Python program is shallowly embedded: pure fragments become Lean
functions, the pandas data frame becomes a list of rows, the interactive
selection (`cutie.select`) becomes an explicit index argument, and Python
exceptions become `Except`/`Option` results.
-/

/-! ### Classification registry (`Priority`, `Severity`, `Status`)

`HumanReadableEnum.__new__` assigns values `1, 2, …` in declaration order;
each member carries a `human_readable` label. -/

inductive Priority where
  | IMMEDIATELY
  | AS_SOON_AS_POSSIBLE
  | FIX_FOR_RELEASE
  | FIX_WHEN_HAVE_TIME
deriving DecidableEq

/-- Enum value: declaration order starting at 1 (`len(cls.__members__) + 1`). -/
def Priority.value : Priority → Nat
  | .IMMEDIATELY => 1
  | .AS_SOON_AS_POSSIBLE => 2
  | .FIX_FOR_RELEASE => 3
  | .FIX_WHEN_HAVE_TIME => 4

def Priority.human_readable : Priority → String
  | .IMMEDIATELY => "Исправить немедленно"
  | .AS_SOON_AS_POSSIBLE => "Исправить как можно быстрее"
  | .FIX_FOR_RELEASE => "Исправить к релизу"
  | .FIX_WHEN_HAVE_TIME => "Исправить, если будет время"

inductive Severity where
  | BLOCKING
  | CRITICAL
  | IMPORTANT
  | ORDINARY
  | TRIVIAL
deriving DecidableEq

/-- Enum value: declaration order starting at 1. -/
def Severity.value : Severity → Nat
  | .BLOCKING => 1
  | .CRITICAL => 2
  | .IMPORTANT => 3
  | .ORDINARY => 4
  | .TRIVIAL => 5

def Severity.human_readable : Severity → String
  | .BLOCKING => "Блокирующий"
  | .CRITICAL => "Критический"
  | .IMPORTANT => "Важный"
  | .ORDINARY => "Обычный"
  | .TRIVIAL => "Тривиальный"

inductive Status where
  | BUG
  | INCIDENT
  | FEATURE
deriving DecidableEq

/-- Enum value: declaration order starting at 1. -/
def Status.value : Status → Nat
  | .BUG => 1
  | .INCIDENT => 2
  | .FEATURE => 3

def Status.human_readable : Status → String
  | .BUG => "Баг"
  | .INCIDENT => "Инцидент"
  | .FEATURE => "Фича"

/-! ### Decimal rendering of integers

Python f-strings such as `f'{self.id}'` and `f'{i}. {v}'` render integers in
decimal.  `pyNatStr`/`pyIntStr` embed that conversion: digits are produced by
repeated division by 10 (fuel-bounded so the definition is structural). -/

/-- Little-endian decimal digits of `n`; `fuel ≥ n` suffices. -/
def decAux : Nat → Nat → List Nat
  | 0, _ => []
  | _ + 1, 0 => []
  | f + 1, n + 1 => ((n + 1) % 10) :: decAux f ((n + 1) / 10)

/-- Little-endian decimal digits of `n` (empty for `n = 0`). -/
def pyDigits (n : Nat) : List Nat := decAux n n

/-- Value of a little-endian digit list. -/
def decVal : List Nat → Nat
  | [] => 0
  | d :: ds => d + 10 * decVal ds

/-- Decimal string of a natural number, as Python's `str` renders it. -/
def pyNatStr (n : Nat) : String :=
  if n = 0 then "0" else ((pyDigits n).reverse.map Nat.digitChar).asString

/-- Decimal string of an integer, as Python's `str` renders it. -/
def pyIntStr (i : Int) : String :=
  if i < 0 then "-" ++ pyNatStr (-i).toNat else pyNatStr i.toNat

lemma decAux_zero (f : Nat) : decAux f 0 = [] := by cases f <;> rfl

lemma decVal_decAux : ∀ f n : Nat, n ≤ f → decVal (decAux f n) = n := by
  intro f
  induction f with
  | zero =>
    intro n hn
    interval_cases n
    rfl
  | succ f ih =>
    intro n hn
    match n with
    | 0 => rfl
    | m + 1 =>
      have hdiv : (m + 1) / 10 ≤ f := by
        have h1 : (m + 1) / 10 < m + 1 := Nat.div_lt_self (Nat.succ_pos m) (by norm_num)
        omega
      simp only [decAux, decVal, ih _ hdiv]
      exact Nat.mod_add_div (m + 1) 10

lemma decVal_pyDigits (n : Nat) : decVal (pyDigits n) = n :=
  decVal_decAux n n le_rfl

lemma pyDigits_injective : Function.Injective pyDigits := by
  intro a b h
  have := congrArg decVal h
  simpa [decVal_pyDigits] using this

lemma decAux_lt_ten : ∀ f n : Nat, ∀ d ∈ decAux f n, d < 10 := by
  intro f
  induction f with
  | zero => intro n d hd; simp [decAux] at hd
  | succ f ih =>
    intro n d hd
    match n with
    | 0 => simp [decAux] at hd
    | m + 1 =>
      simp only [decAux, List.mem_cons] at hd
      rcases hd with h | h
      · subst h; exact Nat.mod_lt _ (by norm_num)
      · exact ih _ _ h

lemma pyDigits_lt_ten (n : Nat) : ∀ d ∈ pyDigits n, d < 10 :=
  decAux_lt_ten n n

lemma digitChar_inj_fin : ∀ a b : Fin 10, Nat.digitChar a.val = Nat.digitChar b.val → a = b := by
  decide

lemma digitChar_inj {a b : Nat} (ha : a < 10) (hb : b < 10)
    (h : Nat.digitChar a = Nat.digitChar b) : a = b := by
  have := digitChar_inj_fin ⟨a, ha⟩ ⟨b, hb⟩ h
  exact congrArg Fin.val this

lemma map_digitChar_inj :
    ∀ l1 l2 : List Nat, (∀ d ∈ l1, d < 10) → (∀ d ∈ l2, d < 10) →
      l1.map Nat.digitChar = l2.map Nat.digitChar → l1 = l2 := by
  intro l1
  induction l1 with
  | nil =>
    intro l2 _ _ h
    cases l2 with
    | nil => rfl
    | cons b t => simp at h
  | cons a t ih =>
    intro l2 h1 h2 h
    cases l2 with
    | nil => simp at h
    | cons b t2 =>
      simp only [List.map_cons, List.cons.injEq] at h
      have ha : a < 10 := h1 a (List.mem_cons_self a t)
      have hb : b < 10 := h2 b (List.mem_cons_self b t2)
      have hab : a = b := digitChar_inj ha hb h.1
      have ht : t = t2 :=
        ih t2 (fun d hd => h1 d (List.mem_cons_of_mem a hd))
          (fun d hd => h2 d (List.mem_cons_of_mem b hd)) h.2
      rw [hab, ht]

lemma asString_inj {l m : List Char} (h : l.asString = m.asString) : l = m := by
  simpa [List.asString, String.ext_iff] using h

lemma pyNatStr_injective : Function.Injective pyNatStr := by
  intro a b h
  unfold pyNatStr at h
  by_cases ha : a = 0 <;> by_cases hb : b = 0
  · rw [ha, hb]
  · exfalso
    rw [if_pos ha, if_neg hb] at h
    have h0 : ("0" : String) = List.asString ['0'] := rfl
    rw [h0] at h
    have hchars := asString_inj h
    have hmap : List.map Nat.digitChar [0] = ['0'] := rfl
    have hb10 : ∀ d ∈ (pyDigits b).reverse, d < 10 := by
      intro d hd
      exact pyDigits_lt_ten b d (List.mem_reverse.mp hd)
    have : ([0] : List Nat) = (pyDigits b).reverse := by
      apply map_digitChar_inj
      · intro d hd
        simp at hd
        omega
      · exact hb10
      · rw [hmap]; exact hchars
    have hdig : pyDigits b = [0] := by
      have := congrArg List.reverse this
      simpa using this.symm
    have := decVal_pyDigits b
    rw [hdig] at this
    simp [decVal] at this
    exact hb this.symm
  · exfalso
    rw [if_neg ha, if_pos hb] at h
    have h0 : ("0" : String) = List.asString ['0'] := rfl
    rw [h0] at h
    have hchars := asString_inj h
    have hmap : List.map Nat.digitChar [0] = ['0'] := rfl
    have ha10 : ∀ d ∈ (pyDigits a).reverse, d < 10 := by
      intro d hd
      exact pyDigits_lt_ten a d (List.mem_reverse.mp hd)
    have : (pyDigits a).reverse = ([0] : List Nat) := by
      apply map_digitChar_inj
      · exact ha10
      · intro d hd
        simp at hd
        omega
      · rw [hmap]; exact hchars
    have hdig : pyDigits a = [0] := by
      have := congrArg List.reverse this
      simpa using this
    have := decVal_pyDigits a
    rw [hdig] at this
    simp [decVal] at this
    exact ha this.symm
  · rw [if_neg ha, if_neg hb] at h
    have hchars := asString_inj h
    have hrev : (pyDigits a).reverse = (pyDigits b).reverse := by
      apply map_digitChar_inj
      · intro d hd; exact pyDigits_lt_ten a d (List.mem_reverse.mp hd)
      · intro d hd; exact pyDigits_lt_ten b d (List.mem_reverse.mp hd)
      · exact hchars
    have : pyDigits a = pyDigits b := by
      have := congrArg List.reverse hrev
      simpa using this
    exact pyDigits_injective this

lemma pyIntStr_inj_pos {i j : Int} (hi : 0 < i) (hj : 0 < j)
    (h : pyIntStr i = pyIntStr j) : i = j := by
  unfold pyIntStr at h
  rw [if_neg (not_lt.mpr hi.le), if_neg (not_lt.mpr hj.le)] at h
  have htn : i.toNat = j.toNat := pyNatStr_injective h
  have := congrArg (fun n : Nat => (n : Int)) htn
  simpa [Int.toNat_of_nonneg hi.le, Int.toNat_of_nonneg hj.le] using this

/-! ### Report model (`BugReport`)

Fields as in the Python class.  `creation_datetime` is an opaque timestamp
rendered as text; Python's `section` field is named `section_` (a Lean
keyword); the `seveirty` typo is kept from the source. -/

structure BugReport where
  id : Int
  author : String
  creation_datetime : String
  section_ : String
  type : String
  brief : String
  expected : String
  actual : String
  reproduction_steps : List String
  status : Status
  priority : Priority
  seveirty : Severity

/-- Embeds `BugReport.__str__`: the per-report markdown document. -/
def bugReportStr (b : BugReport) : String :=
  "# Инцидент " ++ pyIntStr b.id ++ ": " ++ b.brief ++ "\n\n"
  ++ "**Приоритет:** " ++ b.priority.human_readable ++ "\n\n"
  ++ "**Важность:** " ++ b.seveirty.human_readable ++ "\n\n"
  ++ "**Статус:** " ++ b.status.human_readable ++ "\n\n"
  ++ "**Где находится:** " ++ b.section_ ++ "\n\n"
  ++ "**Тип:** " ++ b.type ++ "\n\n"
  ++ "**Время обнаружения**: " ++ b.creation_datetime ++ "\n\n"
  ++ "**Автор:** " ++ b.author ++ "\n\n"
  ++ "--------------------" ++ "\n\n"
  ++ "## Ожидание" ++ "\n\n"
  ++ b.expected ++ "\n\n"
  ++ "## Реальность" ++ "\n\n"
  ++ b.actual ++ "\n\n"
  ++ "## Шаги воспроизведения" ++ "\n\n"
  ++ (if b.reproduction_steps.length ≠ 0 then
        String.join ((b.reproduction_steps.enum).map
          (fun p => pyNatStr (p.1 + 1) ++ ". " ++ p.2 ++ "\n")) ++ "\n"
      else
        "Шаги воспроизведения не указаны! Сообщите " ++ b.author ++ "\n\n")

/-- Embeds `generate_md_filename`: the f-string `BR-<id>-<priority value><seveirty value>.md`. -/
def generate_md_filename (b : BugReport) : String :=
  "BR-" ++ pyIntStr b.id ++ "-" ++ pyNatStr b.priority.value
    ++ pyNatStr b.seveirty.value ++ ".md"

/-! ### Tabular store (`pandas.DataFrame` with the declared column schema)

A row is the flattened projection of one report; the frame is the ordered
list of rows.  `df.loc[len(df.index)] = [...]` with the default integer
index appends one row at the end. -/

structure Row where
  id : Int
  author : String
  creation_datetime : String
  priority_label : String
  severity_label : String
  status_label : String
  location : String
  type : String
  brief : String
  expected : String
  actual : String
  reproduction_steps : String
deriving DecidableEq

/-- The row assigned by `add_bug_report_to_data_frame`: classification fields
as labels, steps as `'\n'.join(f'{i}. {v}' for i, v in enumerate(steps))`
(0-based `enumerate`). -/
def toRow (b : BugReport) : Row :=
  { id := b.id
    author := b.author
    creation_datetime := b.creation_datetime
    priority_label := b.priority.human_readable
    severity_label := b.seveirty.human_readable
    status_label := b.status.human_readable
    location := b.section_
    type := b.type
    brief := b.brief
    expected := b.expected
    actual := b.actual
    reproduction_steps :=
      String.intercalate "\n"
        ((b.reproduction_steps.enum).map (fun p => pyNatStr p.1 ++ ". " ++ p.2)) }

/-- Embeds `add_bug_report_to_data_frame`: `df.loc[len(df.index)] = [...]` appends
the projected row at the end of the frame. -/
def add_bug_report_to_data_frame (df : List Row) (b : BugReport) : List Row :=
  df ++ [toRow b]

/-! ### Identifier allocator (`generate_next_id`)

The `ID` column of a frame read from Excel can hold an integer, `NaN` (a
missing cell) or non-numeric text.  Python's builtin `max` keeps the current
value unless the next element compares strictly greater; every comparison
with `NaN` is false, while comparing text with a number raises `TypeError`
(modeled as `Except.error`).  `NaN + 1` is `NaN`; `text + 1` raises. -/

inductive Cell where
  | num (x : Int)
  | nan
  | str (s : String)
deriving DecidableEq

/-- Python `x > acc` on cell values. -/
def pyGt (x acc : Cell) : Except Unit Bool :=
  match x, acc with
  | .num a, .num b => .ok (decide (b < a))
  | .nan, .num _ => .ok false
  | .num _, .nan => .ok false
  | .nan, .nan => .ok false
  | .str a, .str b => .ok (decide (b < a))
  | .str _, .num _ => .error ()
  | .num _, .str _ => .error ()
  | .str _, .nan => .error ()
  | .nan, .str _ => .error ()

/-- The loop of Python's builtin `max`: fold the remaining elements over the
current maximum `acc`. -/
def pyMaxGo (acc : Cell) : List Cell → Except Unit Cell
  | [] => .ok acc
  | x :: t =>
    match pyGt x acc with
    | .error e => .error e
    | .ok gt => pyMaxGo (if gt then x else acc) t

/-- Python's builtin `max` on a list of cells (empty input raises). -/
def pyMax : List Cell → Except Unit Cell
  | [] => .error ()
  | h :: t => pyMaxGo h t

/-- Python `m + 1` on a cell value. -/
def pyAdd1 : Cell → Except Unit Cell
  | .num x => .ok (.num (x + 1))
  | .nan => .ok .nan
  | .str _ => .error ()

/-- Embeds `generate_next_id`: `1 if len(ids) == 0 else max(ids) + 1`. -/
def generate_next_id (ids : List Cell) : Except Unit Cell :=
  if ids.length = 0 then .ok (.num 1)
  else
    match pyMax ids with
    | .error e => .error e
    | .ok m => pyAdd1 m

lemma pyMaxGo_num (t : List Int) :
    ∀ a : Int, pyMaxGo (Cell.num a) (t.map Cell.num) = .ok (Cell.num (t.foldl max a)) := by
  induction t with
  | nil => intro a; rfl
  | cons hd tl ih =>
    intro a
    have hstep :
        (if decide (a < hd) then Cell.num hd else Cell.num a) = Cell.num (max a hd) := by
      by_cases hc : a < hd
      · simp [hc, max_eq_right hc.le]
      · simp [hc, max_eq_left (not_lt.mp hc)]
    simp only [List.map_cons, pyMaxGo, pyGt, hstep, ih, List.foldl_cons]

lemma max?_spec (l : List Int) (a : Int) :
    l.max? = some a ↔ a ∈ l ∧ ∀ b ∈ l, b ≤ a := by
  have ai : Std.Antisymm (fun x y : Int => x ≤ y) :=
    ⟨fun h1 h2 => le_antisymm h1 h2⟩
  exact @List.max?_eq_some_iff Int a _ _ ai (fun x => le_refl x)
    (fun x y => max_choice x y) (fun _ _ _ => max_le_iff) l

lemma generate_next_id_of_max (l : List Int) (M : Int) (h : l.max? = some M) :
    generate_next_id (l.map Cell.num) = .ok (.num (M + 1)) := by
  cases l with
  | nil => simp [List.max?] at h
  | cons a t =>
    have hM : M = t.foldl max a := by
      simpa [List.max?] using h.symm
    subst hM
    simp only [generate_next_id, List.map_cons, List.length_cons, pyMax, pyMaxGo_num]
    rfl

/-! ### History reuse (`prompt_with_old_variants` and the main-loop update)

The history of a free-text field is a Python `set`; its iteration order is
arbitrary but the source sorts it before display, so the offered list is a
function of the set — modeled as `Finset.sort`.  The operator's interaction
is externalized: `fresh` is the text they would type into a free prompt,
`selected` is the index returned by `cutie.select`; an out-of-range index
(impossible through `cutie`) is `none`, as Python's `t[selected]` would
raise. -/

/-- The sentinel inserted at position 0 of the option list. -/
def other_variant : String := ">> Другое"

/-- The option list shown by `cutie.select`: sentinel first, then the sorted
distinct previous values (`t = sorted(old_variants); t.insert(0, ...)`). -/
def variant_options (old_variants : Finset String) : List String :=
  other_variant :: old_variants.sort (· ≤ ·)

/-- Embeds `prompt_with_old_variants`. -/
def prompt_with_old_variants (old_variants : Finset String) (fresh : String)
    (selected : Nat) : Option String :=
  if old_variants = ∅ then some fresh
  else if selected = 0 then some fresh
  else (variant_options old_variants)[selected]?

/-- The main loop's `locations.add(...)` / `types.add(...)` after a report is
built. -/
def update_history (h : Finset String) (v : String) : Finset String :=
  insert v h

/-! ### Compiler (`compile_to_pdf_report`)

The output directory is a list of named entries (name, regular-file flag,
content); `os.listdir` yields the names, `sorted` orders them, and the loop
keeps an entry only if it is a regular file, `os.path.splitext` gives the
`.md` extension, and the basename starts with `BR`.  The compiled artifact
is the ordered list of `(filename, content)` sections added to the PDF. -/

structure DirEntry where
  name : String
  isFile : Bool
  content : String
deriving DecidableEq

/-- The extension part of `os.path.splitext` on a bare filename (no path
separators): the suffix from the last dot, unless every character before
that dot is itself a dot. -/
def splitextExt (name : String) : String :=
  let cs := name.data
  let afterRev := cs.reverse.takeWhile (fun c => c ≠ '.')
  if afterRev.length = cs.length then ""
  else
    let dotIndex := cs.length - afterRev.length - 1
    if (cs.take dotIndex).all (fun c => c = '.') then ""
    else (cs.drop dotIndex).asString

/-- The filter applied to each directory entry by `compile_to_pdf_report`. -/
def isTargetFile (e : DirEntry) : Bool :=
  e.isFile && (splitextExt e.name == ".md") && e.name.startsWith "BR"

/-- One iteration of the compile loop: look the listed name up in the
directory, skip it unless it is a matching regular file, otherwise read its
content and add the section. -/
def compileStep (dir : List DirEntry) (n : String) : Option (String × String) :=
  match dir.find? (fun e => e.name == n) with
  | some e => if isTargetFile e then some (e.name, e.content) else none
  | none => none

/-- Embeds `compile_to_pdf_report`: walk `sorted(os.listdir(dir))`, look each name up
in the directory, skip non-matching entries, and collect the sections added
to the PDF in order. -/
def compile_to_pdf_report (dir : List DirEntry) : List (String × String) :=
  ((dir.map DirEntry.name).mergeSort (fun a b => decide (a ≤ b))).filterMap
    (compileStep dir)

/-! ### Concrete sample data for witnesses and counterexamples -/

/-- A concrete report: id 7, priority ordinal 2, severity ordinal 3. -/
def sampleReport : BugReport :=
  { id := 7
    author := "A"
    creation_datetime := "2024-01-01 00:00:00"
    section_ := "Checkout"
    type := "UI"
    brief := "b"
    expected := "e"
    actual := "a"
    reproduction_steps := ["a"]
    status := .BUG
    priority := .AS_SOON_AS_POSSIBLE
    seveirty := .IMPORTANT }

/-- A concrete report with no reproduction steps and a different id. -/
def sampleReportNoSteps : BugReport :=
  { sampleReport with id := 8, reproduction_steps := [] }

/-! ### Claims -/

/-- C1: `generate_next_id` returns 1 on an empty store and `M + 1` when the
`ID` column is a well-formed integer column with maximum `M`; the result is
invariant under permuting the rows. -/
theorem generate_next_id_spec (ids ids2 : List Int) (M : Int)
    (hM : ids.max? = some M) (hperm : ids.Perm ids2) :
    generate_next_id [] = .ok (.num 1)
    ∧ generate_next_id (ids.map Cell.num) = .ok (.num (M + 1))
    ∧ generate_next_id (ids.map Cell.num) = generate_next_id (ids2.map Cell.num) := by
  have h2 : ids2.max? = some M := by
    rcases (max?_spec ids M).mp hM with ⟨hmem, hub⟩
    exact (max?_spec ids2 M).mpr
      ⟨hperm.mem_iff.mp hmem, fun b hb => hub b (hperm.mem_iff.mpr hb)⟩
  exact ⟨rfl, generate_next_id_of_max ids M hM, by
    rw [generate_next_id_of_max ids M hM, generate_next_id_of_max ids2 M h2]⟩

/-- Witness for C1 at the store `[3, 1]` and its permutation `[1, 3]`. -/
theorem generate_next_id_spec_witness :
    ([3, 1] : List Int).max? = some 3 ∧ ([3, 1] : List Int).Perm [1, 3]
    ∧ (generate_next_id [] = .ok (.num 1)
       ∧ generate_next_id (([3, 1] : List Int).map Cell.num) = .ok (.num (3 + 1))
       ∧ generate_next_id (([3, 1] : List Int).map Cell.num)
         = generate_next_id (([1, 3] : List Int).map Cell.num)) :=
  ⟨by decide, by decide, generate_next_id_spec [3, 1] [1, 3] 3 (by decide) (by decide)⟩

/-- C4: on an identifier column with a missing value (`NaN`), the allocator
does not raise: `max([nan])` is `nan` and `nan + 1` is `nan`, so a fabricated
`NaN` identifier is returned silently; with `[3, NaN]` the missing value is
silently ignored and `4` is returned.  This contradicts the required
corrupt-store failure mode. -/
theorem generate_next_id_silent_on_missing :
    generate_next_id [Cell.nan] = .ok Cell.nan
    ∧ generate_next_id [Cell.num 3, Cell.nan] = .ok (Cell.num 4) :=
  ⟨rfl, rfl⟩

/-- C2: appending a report adds exactly one row at the end and leaves every
previously appended row unchanged. -/
theorem add_bug_report_to_data_frame_spec (df : List Row) (b : BugReport)
    (i : Nat) (hi : i < df.length) :
    (add_bug_report_to_data_frame df b).length = df.length + 1
    ∧ (add_bug_report_to_data_frame df b)[i]? = df[i]?
    ∧ (add_bug_report_to_data_frame df b)[df.length]? = some (toRow b) := by
  refine ⟨by simp [add_bug_report_to_data_frame], ?_, ?_⟩
  · simp [add_bug_report_to_data_frame, List.getElem?_append, hi]
  · simp [add_bug_report_to_data_frame,
      List.getElem?_append_right (le_refl df.length)]

/-- Witness for C2 on a one-row frame. -/
theorem add_bug_report_to_data_frame_spec_witness :
    0 < ([toRow sampleReport] : List Row).length
    ∧ ((add_bug_report_to_data_frame [toRow sampleReport] sampleReportNoSteps).length
         = ([toRow sampleReport] : List Row).length + 1
       ∧ (add_bug_report_to_data_frame [toRow sampleReport] sampleReportNoSteps)[0]?
         = ([toRow sampleReport] : List Row)[0]?
       ∧ (add_bug_report_to_data_frame [toRow sampleReport]
            sampleReportNoSteps)[([toRow sampleReport] : List Row).length]?
         = some (toRow sampleReportNoSteps)) :=
  ⟨by decide,
    add_bug_report_to_data_frame_spec [toRow sampleReport] sampleReportNoSteps 0 (by decide)⟩

/-- C10: a report with no reproduction steps stores the empty string in the
steps column of its new row. -/
theorem empty_steps_stored_empty (df : List Row) (b : BugReport)
    (h : b.reproduction_steps = []) :
    (add_bug_report_to_data_frame df b)[df.length]? = some (toRow b)
    ∧ (toRow b).reproduction_steps = "" := by
  refine ⟨by simp [add_bug_report_to_data_frame,
    List.getElem?_append_right (le_refl df.length)], ?_⟩
  simp [toRow, h]
  rfl

/-- Witness for C10 on a concrete no-steps report. -/
theorem empty_steps_stored_empty_witness :
    sampleReportNoSteps.reproduction_steps = []
    ∧ ((add_bug_report_to_data_frame [] sampleReportNoSteps)[([] : List Row).length]?
         = some (toRow sampleReportNoSteps)
       ∧ (toRow sampleReportNoSteps).reproduction_steps = "") :=
  ⟨rfl, empty_steps_stored_empty [] sampleReportNoSteps rfl⟩

/-- Specification-side rendering of the steps column, for comparison with the
code: one line per step, numbered consecutively starting from `k`. -/
def numberedFrom (k : Nat) : List String → List String
  | [] => []
  | s :: t => (pyNatStr k ++ ". " ++ s) :: numberedFrom (k + 1) t

lemma enumFrom_map_numbered (l : List String) :
    ∀ k, (List.enumFrom k l).map (fun p => pyNatStr p.1 ++ ". " ++ p.2)
      = numberedFrom k l := by
  induction l with
  | nil => intro k; rfl
  | cons s t ih => intro k; simp [List.enumFrom_cons, numberedFrom, ih]

/-- C3 (counterexample): the stored steps cell of a report whose single step
is `"a"` is `"0. a"`, not the 1-based `"1. a"` the claim asserts. -/
theorem steps_cell_not_one_based :
    (add_bug_report_to_data_frame [] sampleReport).map Row.reproduction_steps = ["0. a"]
    ∧ (add_bug_report_to_data_frame [] sampleReport).map Row.reproduction_steps
      ≠ ["1. a"] := by
  constructor
  · rfl
  · decide

/-- C3 (amended): the append operation stores the reproduction steps as a
single newline-joined string whose lines are numbered 0-based (`enumerate`
starts at 0), the first step being numbered 0. -/
theorem steps_cell_zero_based (df : List Row) (b : BugReport) :
    add_bug_report_to_data_frame df b = df ++ [toRow b]
    ∧ (toRow b).reproduction_steps
      = String.intercalate "\n" (numberedFrom 0 b.reproduction_steps) :=
  ⟨rfl, congrArg (String.intercalate "\n")
    (enumFrom_map_numbered b.reproduction_steps 0)⟩

/-- C9: the rendered document is a function of the report's fields alone —
two reports that agree on every field render to identical text. -/
theorem bugReportStr_deterministic (b1 b2 : BugReport)
    (h : b1.id = b2.id ∧ b1.author = b2.author
      ∧ b1.creation_datetime = b2.creation_datetime
      ∧ b1.section_ = b2.section_ ∧ b1.type = b2.type ∧ b1.brief = b2.brief
      ∧ b1.expected = b2.expected ∧ b1.actual = b2.actual
      ∧ b1.reproduction_steps = b2.reproduction_steps ∧ b1.status = b2.status
      ∧ b1.priority = b2.priority ∧ b1.seveirty = b2.seveirty) :
    bugReportStr b1 = bugReportStr b2 := by
  obtain ⟨h1, h2, h3, h4, h5, h6, h7, h8, h9, h10, h11, h12⟩ := h
  have hb : b1 = b2 := by
    cases b1
    cases b2
    simp only [BugReport.mk.injEq]
    exact ⟨h1, h2, h3, h4, h5, h6, h7, h8, h9, h10, h11, h12⟩
  rw [hb]

/-- Witness for C9: the sample report rendered against itself. -/
theorem bugReportStr_deterministic_witness :
    (sampleReport.id = sampleReport.id ∧ sampleReport.author = sampleReport.author
      ∧ sampleReport.creation_datetime = sampleReport.creation_datetime
      ∧ sampleReport.section_ = sampleReport.section_
      ∧ sampleReport.type = sampleReport.type ∧ sampleReport.brief = sampleReport.brief
      ∧ sampleReport.expected = sampleReport.expected
      ∧ sampleReport.actual = sampleReport.actual
      ∧ sampleReport.reproduction_steps = sampleReport.reproduction_steps
      ∧ sampleReport.status = sampleReport.status
      ∧ sampleReport.priority = sampleReport.priority
      ∧ sampleReport.seveirty = sampleReport.seveirty)
    ∧ bugReportStr sampleReport = bugReportStr sampleReport :=
  ⟨⟨rfl, rfl, rfl, rfl, rfl, rfl, rfl, rfl, rfl, rfl, rfl, rfl⟩,
    bugReportStr_deterministic sampleReport sampleReport
      ⟨rfl, rfl, rfl, rfl, rfl, rfl, rfl, rfl, rfl, rfl, rfl, rfl⟩⟩

lemma priority_value_len (p : Priority) : (pyNatStr p.value).length = 1 := by
  cases p <;> rfl

lemma severity_value_len (s : Severity) : (pyNatStr s.value).length = 1 := by
  cases s <;> rfl

/-- C5: the filename is `BR-<id>-<priority ordinal><severity ordinal>.md`,
and two reports with distinct (positive) ids never share a filename. -/
theorem generate_md_filename_spec (b1 b2 : BugReport)
    (hpos1 : 0 < b1.id) (hpos2 : 0 < b2.id) (hne : b1.id ≠ b2.id) :
    generate_md_filename b1
      = "BR-" ++ pyIntStr b1.id ++ "-" ++ pyNatStr b1.priority.value
        ++ pyNatStr b1.seveirty.value ++ ".md"
    ∧ generate_md_filename b1 ≠ generate_md_filename b2 := by
  refine ⟨rfl, ?_⟩
  intro h
  apply hne
  have hd := congrArg String.data h
  simp only [generate_md_filename, String.data_append, List.append_assoc] at hd
  have hd2 := List.append_cancel_left hd
  have hlen :
      ("-".data ++ ((pyNatStr b1.priority.value).data
        ++ ((pyNatStr b1.seveirty.value).data ++ ".md".data))).length
      = ("-".data ++ ((pyNatStr b2.priority.value).data
        ++ ((pyNatStr b2.seveirty.value).data ++ ".md".data))).length := by
    simp [List.length_append, priority_value_len, severity_value_len]
  have hsplit := List.append_inj' hd2 hlen
  exact pyIntStr_inj_pos hpos1 hpos2 (String.ext hsplit.1)

/-- Witness for C5: ids 7 and 8, priority ordinal 2, severity ordinal 3. -/
theorem generate_md_filename_spec_witness :
    0 < sampleReport.id ∧ 0 < sampleReportNoSteps.id
    ∧ sampleReport.id ≠ sampleReportNoSteps.id
    ∧ (generate_md_filename sampleReport
        = "BR-" ++ pyIntStr sampleReport.id ++ "-"
          ++ pyNatStr sampleReport.priority.value
          ++ pyNatStr sampleReport.seveirty.value ++ ".md"
       ∧ generate_md_filename sampleReport
         ≠ generate_md_filename sampleReportNoSteps) :=
  ⟨by decide, by decide, by decide,
    generate_md_filename_spec sampleReport sampleReportNoSteps
      (by decide) (by decide) (by decide)⟩

/-- C6: when the steps list is empty, the rendered document contains the
steps-missing notice with the author's name embedded. -/
theorem render_empty_steps_notice (b : BugReport)
    (h : b.reproduction_steps = []) :
    ∃ p q : String,
      bugReportStr b
        = p ++ ("Шаги воспроизведения не указаны! Сообщите " ++ b.author) ++ q := by
  refine ⟨"# Инцидент " ++ pyIntStr b.id ++ ": " ++ b.brief ++ "\n\n"
      ++ "**Приоритет:** " ++ b.priority.human_readable ++ "\n\n"
      ++ "**Важность:** " ++ b.seveirty.human_readable ++ "\n\n"
      ++ "**Статус:** " ++ b.status.human_readable ++ "\n\n"
      ++ "**Где находится:** " ++ b.section_ ++ "\n\n"
      ++ "**Тип:** " ++ b.type ++ "\n\n"
      ++ "**Время обнаружения**: " ++ b.creation_datetime ++ "\n\n"
      ++ "**Автор:** " ++ b.author ++ "\n\n"
      ++ "--------------------" ++ "\n\n"
      ++ "## Ожидание" ++ "\n\n"
      ++ b.expected ++ "\n\n"
      ++ "## Реальность" ++ "\n\n"
      ++ b.actual ++ "\n\n"
      ++ "## Шаги воспроизведения" ++ "\n\n", "\n\n", ?_⟩
  simp [bugReportStr, h, String.append_assoc]

/-- Witness for C6 on a concrete no-steps report. -/
theorem render_empty_steps_notice_witness :
    sampleReportNoSteps.reproduction_steps = []
    ∧ ∃ p q : String,
        bugReportStr sampleReportNoSteps
          = p ++ ("Шаги воспроизведения не указаны! Сообщите "
              ++ sampleReportNoSteps.author) ++ q :=
  ⟨rfl, render_empty_steps_notice sampleReportNoSteps rfl⟩

/-- C7: with an empty history the prompt requires a fresh entry; otherwise the
offered options are the sentinel followed by the sorted distinct prior
values; index 0 yields the fresh entry, index `i + 1` yields the `i`-th
sorted prior value verbatim, and re-adding a selected prior value leaves the
history set unchanged. -/
theorem prompt_with_old_variants_spec (old : Finset String) (fresh v : String)
    (i : Nat) (hne : old ≠ ∅)
    (hv : (old.sort (· ≤ ·))[i]? = some v) :
    (∀ sel, prompt_with_old_variants ∅ fresh sel = some fresh)
    ∧ (variant_options old).head? = some other_variant
    ∧ List.Sorted (· ≤ ·) (variant_options old).tail
    ∧ (variant_options old).tail.Nodup
    ∧ (∀ w, w ∈ (variant_options old).tail ↔ w ∈ old)
    ∧ prompt_with_old_variants old fresh 0 = some fresh
    ∧ prompt_with_old_variants old fresh (i + 1) = some v
    ∧ update_history old v = old := by
  refine ⟨fun sel => by simp [prompt_with_old_variants], rfl, ?_, ?_, ?_, ?_, ?_, ?_⟩
  · exact Finset.sort_sorted (· ≤ ·) old
  · exact Finset.sort_nodup (· ≤ ·) old
  · intro w
    exact Finset.mem_sort (· ≤ ·)
  · simp [prompt_with_old_variants, hne]
  · show prompt_with_old_variants old fresh (i + 1) = some v
    rw [prompt_with_old_variants, if_neg hne, if_neg (Nat.succ_ne_zero i)]
    show (other_variant :: old.sort (· ≤ ·))[i + 1]? = some v
    rw [List.getElem?_cons_succ]
    exact hv
  · have hvmem : v ∈ old := by
      rcases List.getElem?_eq_some.mp hv with ⟨hlt, hget⟩
      have hsortmem : v ∈ old.sort (· ≤ ·) := hget ▸ List.getElem_mem hlt
      exact (Finset.mem_sort (· ≤ ·)).mp hsortmem
    simpa [update_history] using Finset.insert_eq_self.mpr hvmem

/-- Witness for C7 on the one-element history `{"Checkout"}`. -/
theorem prompt_with_old_variants_spec_witness :
    ({"Checkout"} : Finset String) ≠ ∅
    ∧ (({"Checkout"} : Finset String).sort (· ≤ ·))[0]? = some "Checkout"
    ∧ ((∀ sel, prompt_with_old_variants ∅ "Basket" sel = some "Basket")
       ∧ (variant_options {"Checkout"}).head? = some other_variant
       ∧ List.Sorted (· ≤ ·) (variant_options {"Checkout"}).tail
       ∧ (variant_options {"Checkout"}).tail.Nodup
       ∧ (∀ w, w ∈ (variant_options {"Checkout"}).tail
           ↔ w ∈ ({"Checkout"} : Finset String))
       ∧ prompt_with_old_variants {"Checkout"} "Basket" 0 = some "Basket"
       ∧ prompt_with_old_variants {"Checkout"} "Basket" (0 + 1) = some "Checkout"
       ∧ update_history {"Checkout"} "Checkout" = {"Checkout"}) :=
  ⟨Finset.singleton_ne_empty _, by simp [Finset.sort_singleton],
    prompt_with_old_variants_spec {"Checkout"} "Basket" "Checkout" 0
      (Finset.singleton_ne_empty _) (by simp [Finset.sort_singleton])⟩

lemma map_fst_filterMap {β : Type} (f : String → Option (String × β))
    (hf : ∀ n c, f n = some c → c.1 = n) :
    ∀ l : List String,
      (l.filterMap f).map Prod.fst = l.filter (fun n => (f n).isSome) := by
  intro l
  induction l with
  | nil => rfl
  | cons hd tl ih =>
    cases hc : f hd with
    | none => simp [List.filterMap_cons, hc, ih, List.filter_cons]
    | some c =>
      simp [List.filterMap_cons, hc, ih, List.filter_cons, hf hd c hc]

lemma mergeSort_names_sorted (dir : List DirEntry) :
    List.Sorted (· ≤ ·)
      ((dir.map DirEntry.name).mergeSort (fun a b => decide (a ≤ b))) := by
  have h := @List.sorted_mergeSort String (fun a b : String => decide (a ≤ b))
    (fun a b c hab hbc => by
      simp only [decide_eq_true_eq] at *
      exact le_trans hab hbc)
    (fun a b => by
      simp only [Bool.or_eq_true, decide_eq_true_eq]
      exact le_total a b)
    (dir.map DirEntry.name)
  exact h.imp (fun hab => by simpa using hab)

/-- C8: the compiled artifact consists of exactly the directory entries that
are regular files with the `.md` extension and the `BR` name prefix, and the
sections appear in lexicographic filename order. -/
theorem compile_to_pdf_report_spec (dir : List DirEntry) (p : String × String)
    (hnodup : (dir.map DirEntry.name).Nodup) :
    (p ∈ compile_to_pdf_report dir
      ↔ ∃ e ∈ dir, isTargetFile e ∧ p = (e.name, e.content))
    ∧ List.Sorted (· ≤ ·) ((compile_to_pdf_report dir).map Prod.fst) := by
  have hstep : ∀ n c, compileStep dir n = some c →
      c.1 = n ∧ ∃ e ∈ dir, isTargetFile e ∧ c = (e.name, e.content) := by
    intro n c hc
    unfold compileStep at hc
    cases hfind : dir.find? (fun e => e.name == n) with
    | none => rw [hfind] at hc; exact absurd hc (by simp)
    | some e =>
      rw [hfind] at hc
      dsimp only at hc
      by_cases ht : isTargetFile e
      · rw [if_pos ht] at hc
        have hce : (e.name, e.content) = c := Option.some_inj.mp hc
        have hname : e.name = n := by
          have := List.find?_some hfind
          simpa using this
        refine ⟨?_, e, List.mem_of_find?_eq_some hfind, ht, hce.symm⟩
        rw [← hce]
        exact hname
      · rw [if_neg ht] at hc
        exact absurd hc (by simp)
  constructor
  · simp only [compile_to_pdf_report]
    constructor
    · intro hp
      rcases List.mem_filterMap.mp hp with ⟨n, _, hc⟩
      rcases hstep n p hc with ⟨_, e, hedir, hte, hpe⟩
      exact ⟨e, hedir, hte, hpe⟩
    · rintro ⟨e, hedir, hte, rfl⟩
      apply List.mem_filterMap.mpr
      refine ⟨e.name, ?_, ?_⟩
      · exact List.mem_mergeSort.mpr (List.mem_map_of_mem DirEntry.name hedir)
      · have hfind : dir.find? (fun x => x.name == e.name) = some e := by
          cases hsome : dir.find? (fun x => x.name == e.name) with
          | none =>
            exfalso
            have hall : ∀ x ∈ dir, ¬ (x.name == e.name) = true := by
              simpa [List.find?_eq_none] using hsome
            exact hall e hedir (by simp)
          | some e2 =>
            have he2name : e2.name = e.name := by
              simpa using List.find?_some hsome
            have he2mem := List.mem_of_find?_eq_some hsome
            rw [List.inj_on_of_nodup_map hnodup he2mem hedir he2name]
        unfold compileStep
        rw [hfind]
        dsimp only
        rw [if_pos hte]
  · have hmap := map_fst_filterMap (compileStep dir)
      (fun n c hc => (hstep n c hc).1)
      ((dir.map DirEntry.name).mergeSort (fun a b => decide (a ≤ b)))
    simp only [compile_to_pdf_report]
    rw [hmap]
    exact List.Pairwise.sublist (List.filter_sublist _) (mergeSort_names_sorted dir)

/-- A concrete two-entry directory: one matching report document and one
unrelated file. -/
def dirW : List DirEntry :=
  [⟨"BR-1-23.md", true, "X"⟩, ⟨"note.txt", true, "Y"⟩]

/-- Witness for C8 on the concrete directory `dirW`. -/
theorem compile_to_pdf_report_spec_witness :
    (dirW.map DirEntry.name).Nodup
    ∧ ((("BR-1-23.md", "X") ∈ compile_to_pdf_report dirW
        ↔ ∃ e ∈ dirW, isTargetFile e ∧ ("BR-1-23.md", "X") = (e.name, e.content))
       ∧ List.Sorted (· ≤ ·) ((compile_to_pdf_report dirW).map Prod.fst)) :=
  ⟨by decide, compile_to_pdf_report_spec dirW ("BR-1-23.md", "X") (by decide)⟩
